import Mathlib

/-!
Verification of the download-cache and playback-control core of
`src/main.py` (a Telegram voice-chat music bot HTTP service).

The file has two embeddings of the same source code:

* a sequential embedding (`DLState`, `download_audio`, `cache_song`,
  `play`, `stop`, `pause`, `resume`) in which each handler runs to
  completion without interleaving — Python state (the module-level
  `download_cache` / `download_locks` dicts, the temp-file area, the
  network) is threaded explicitly, the upstream backends and the call
  engine are oracles;

* a small-step cooperative embedding (`CState`, `stepT`, `runSched`) of
  N concurrent `download_audio` calls for one resource key, with the
  suspension points of the Python coroutine (lock wait, network I/O)
  as the only interleaving points, used for the single-flight claims.
-/

namespace PyTg

/-- Association-list lookup keyed on the first component, mirroring a
Python dict read (`d[k]` / `k in d`). -/
def lookupA (k : String) : List (String × String) → Option String
  | [] => none
  | (k', v) :: rest => if k' = k then some v else lookupA k rest

/-- Remove a binding, mirroring `del d[k]` on a dict with unique keys. -/
def eraseKey (k : String) (l : List (String × String)) : List (String × String) :=
  l.filter (fun p => p.1 ≠ k)

/-- Overwriting insert, mirroring `d[k] = v`. -/
def insertA (k v : String) (l : List (String × String)) : List (String × String) :=
  (k, v) :: eraseKey k l

/-- The backend registry `DOWNLOAD_APIS` of `src/main.py` (default
environment values). -/
def DOWNLOAD_APIS : List (String × String) :=
  [("default", "https://divine-dream-fde5.lagendplayersyt.workers.dev/down?url="),
   ("secondary", "https://frozen-youtube-api-search-link-b89x.onrender.com/download?url="),
   ("tertiary", "https://ytapi-df6f5442e070.herokuapp.com/download?url=")]

/-- The configured backend names, in registry order. -/
def apiNames : List String := DOWNLOAD_APIS.map Prod.fst

/-- Fresh temporary file name produced by `tempfile.NamedTemporaryFile`
(the n-th name handed out by the OS in this run). -/
def tmpName (c : Nat) : String := "tmp" ++ toString c ++ ".mp3"

/-- A backend oracle: what the streaming GET against a given backend
(`api_name`) for a given resource key returns — success, or a failure
cause (timeout, transport error and non-2xx status all surface as one
caught exception in the source). -/
def Backend : Type := String → String → Except String Unit

/-- The mutable module-level state of `src/main.py` that `download_audio`
reads and writes, plus an observation log of issued network calls. -/
structure DLState where
  download_cache : List (String × String)
  download_locks : List String
  files : List String
  fetch_log : List (String × String)
  tmp_counter : Nat
deriving DecidableEq, Repr

/-- The empty starting state (fresh process, empty temp area). -/
def dlInit : DLState := ⟨[], [], [], [], 0⟩

/-- The two kinds of exception `download_audio` raises: the `ValueError`
for an unknown API key, and the wrapped download failure
`Exception("Download via '<api>' failed: <cause>")`. -/
inductive DLErr where
  | valueError (msg : String)
  | downloadFailed (api_name : String) (cause : String)
deriving DecidableEq, Repr

/-- `str(e)` for the exceptions above. -/
def DLErr.toMessage : DLErr → String
  | .valueError m => m
  | .downloadFailed a c => "Download via '" ++ a ++ "' failed: " ++ c

/-- The body of `download_audio` once the per-key lock is held: the
double-checked cache read, then the temp file + streaming GET, the
partial-file removal on failure, the cache install on success, and the
`finally` that deletes the key's lock-table entry.  The early return on
the double-check hit leaves the lock entry in place, exactly as in the
source (that return precedes the `try`/`finally`). -/
def fetchBody (b : Backend) (url api_name : String) (s : DLState) :
    Except DLErr String × DLState :=
  match lookupA url s.download_cache with
  | some p =>
    if p ∈ s.files then (.ok p, s)
    else fetchCore b url api_name s
  | none => fetchCore b url api_name s
where
  fetchCore (b : Backend) (url api_name : String) (s : DLState) :
      Except DLErr String × DLState :=
    let file_name := tmpName s.tmp_counter
    let s1 : DLState :=
      { s with files := file_name :: s.files,
               tmp_counter := s.tmp_counter + 1,
               fetch_log := s.fetch_log ++ [(api_name, url)] }
    match b api_name url with
    | .ok _ =>
      (.ok file_name,
       { s1 with download_cache := insertA url file_name s1.download_cache,
                 download_locks := s1.download_locks.filter (fun k => k ≠ url) })
    | .error cause =>
      (.error (.downloadFailed api_name cause),
       { s1 with files := s1.files.erase file_name,
                 download_locks := s1.download_locks.filter (fun k => k ≠ url) })

/-- Sequential embedding of `download_audio(url, api_name)` from
`src/main.py`: unknown-API guard, cache check with existence
re-validation and eviction, lazy per-key lock creation and (immediate,
since this run is not interleaved) acquisition, then `fetchBody`. -/
def download_audio (b : Backend) (url api_name : String) (s : DLState) :
    Except DLErr String × DLState :=
  if (lookupA api_name DOWNLOAD_APIS).isNone then
    (.error (.valueError ("Unknown API key: '" ++ api_name ++
      "'. Choose from ['default', 'secondary', 'tertiary'].")), s)
  else
    match lookupA url s.download_cache with
    | some p =>
      if p ∈ s.files then (.ok p, s)
      else
        let s1 : DLState := { s with download_cache := eraseKey url s.download_cache }
        let s2 : DLState :=
          if url ∈ s1.download_locks then s1
          else { s1 with download_locks := url :: s1.download_locks }
        fetchBody b url api_name s2
    | none =>
      let s2 : DLState :=
        if url ∈ s.download_locks then s
        else { s with download_locks := url :: s.download_locks }
      fetchBody b url api_name s2

/-- Accumulate a decimal digit string into a number; `none` when empty
or when any character is not a digit. -/
def natOfDigits (l : List Char) : Option Nat :=
  l.foldl
    (fun acc c =>
      match acc with
      | none => none
      | some n => if c.isDigit then some (n * 10 + (c.toNat - 48)) else none)
    (if l.isEmpty then none else some 0)

/-- Embedding of `int(chatid)` as used by the handlers: an optional
minus sign followed by decimal digits (Python additionally strips
whitespace and accepts a plus sign and underscores; no claim depends on
those inputs). -/
def parseInt (s : String) : Option Int :=
  match s.data with
  | '-' :: rest => (natOfDigits rest).map (fun n => -(n : Int))
  | l => (natOfDigits l).map (fun n => (n : Int))

/-- The call-engine / session-client oracle: what each external
asynchronous call (`py_tgcalls.play/pause/resume/leave_call`) returns
for a given chat — success, or the text of the raised exception. -/
structure Engine where
  playRes : Int → String → Except String Unit
  pauseRes : Int → Except String Unit
  resumeRes : Int → Except String Unit
  leaveRes : Int → Except String Unit

/-- A JSON response: HTTP status plus flat string fields (`jsonify`). -/
structure Response where
  status : Nat
  fields : List (String × String)
deriving DecidableEq, Repr

/-- Python truthiness of `request.args.get(name)`: absent or empty
string count as missing (`if not chatid`). -/
def argMissing (a : Option String) : Bool :=
  match a with
  | none => true
  | some s => s = ""

/-- `request.args.get('api') or '1'`. -/
def orDefault (a : Option String) (d : String) : String :=
  match a with
  | none => d
  | some s => if s = "" then d else s

/-- The `/play` handler's numeric-selector table (`api_map`). -/
def api_map : List (String × String) :=
  [("1", "default"), ("2", "secondary"), ("3", "tertiary")]

/-- Embedding of the `/play` handler plus `play_media`: parameter
validation, selector mapping, readiness check, `download_audio`, then
the engine `play` call.  The third component records the engine `play`
invocations made (chat id, media path), so that "no runtime call" is
observable. -/
def play (eng : Engine) (ci : Bool) (b : Backend)
    (chatid url api : Option String) (s : DLState) :
    Response × DLState × List (Int × String) :=
  let api_param := orDefault api "1"
  if argMissing chatid ∨ argMissing url then
    (⟨400, [("error", "Missing chatid or url parameter")]⟩, s, [])
  else
    let cs := chatid.getD ""
    let vu := url.getD ""
    match parseInt cs with
    | none => (⟨400, [("error", "Invalid chatid parameter")]⟩, s, [])
    | some chat_id =>
      match lookupA api_param api_map with
      | none =>
        (⟨400, [("error", "Invalid api '" ++ api_param ++ "'. Choose 1, 2 or 3.")]⟩, s, [])
      | some api_key =>
        if ¬ ci then (⟨503, [("error", "Server starting up, please wait.")]⟩, s, [])
        else
          match download_audio b vu api_key s with
          | (.error e, s') => (⟨500, [("error", e.toMessage)]⟩, s', [])
          | (.ok path, s') =>
            match eng.playRes chat_id path with
            | .error e => (⟨500, [("error", e)]⟩, s', [(chat_id, path)])
            | .ok _ =>
              (⟨200, [("message", "Playing media"), ("chatid", cs),
                      ("url", vu), ("api_selected", api_param)]⟩, s', [(chat_id, path)])

/-- Result of the `/cache` handler. -/
inductive CacheOut where
  | missingUrl
  | success (api_used : String)
  | bothFailed (details : List (String × String))
deriving DecidableEq, Repr

/-- Embedding of the `/cache` handler (`cache_song`): try the `default`
backend, fall back to `secondary`, and on two failures report both
causes keyed by backend name. -/
def cache_song (b : Backend) (url : Option String) (s : DLState) :
    CacheOut × DLState :=
  if argMissing url then (.missingUrl, s)
  else
    let u := url.getD ""
    match download_audio b u "default" s with
    | (.ok _, s1) => (.success "default", s1)
    | (.error e1, s1) =>
      match download_audio b u "secondary" s1 with
      | (.ok _, s2) => (.success "secondary", s2)
      | (.error e2, s2) =>
        (.bothFailed [("default", e1.toMessage), ("secondary", e2.toMessage)], s2)

/-- Embedding of the `/stop` handler: validate `chatid`, then forward
to `py_tgcalls.leave_call`, surfacing any engine exception as a 500. -/
def stop (eng : Engine) (ci : Bool) (chatid : Option String) : Response :=
  if argMissing chatid then ⟨400, [("error", "Missing chatid parameter")]⟩
  else
    match parseInt (chatid.getD "") with
    | none => ⟨400, [("error", "Invalid chatid parameter")]⟩
    | some c =>
      if ¬ ci then ⟨503, [("error", "Clients not initialized")]⟩
      else
        match eng.leaveRes c with
        | .error e => ⟨500, [("error", e)]⟩
        | .ok _ => ⟨200, [("message", "Stopped media"), ("chatid", chatid.getD "")]⟩

/-- Embedding of the `/pause` handler: forward to `py_tgcalls.pause`,
surfacing any engine exception as a 500. -/
def pause (eng : Engine) (ci : Bool) (chatid : Option String) : Response :=
  if argMissing chatid then ⟨400, [("error", "Missing chatid parameter")]⟩
  else
    match parseInt (chatid.getD "") with
    | none => ⟨400, [("error", "Invalid chatid parameter")]⟩
    | some c =>
      if ¬ ci then ⟨503, [("error", "Clients not initialized")]⟩
      else
        match eng.pauseRes c with
        | .error e => ⟨500, [("error", e)]⟩
        | .ok _ => ⟨200, [("message", "Paused media"), ("chatid", chatid.getD "")]⟩

/-- Embedding of the `/resume` handler: forward to `py_tgcalls.resume`,
surfacing any engine exception as a 500. -/
def resume (eng : Engine) (ci : Bool) (chatid : Option String) : Response :=
  if argMissing chatid then ⟨400, [("error", "Missing chatid parameter")]⟩
  else
    match parseInt (chatid.getD "") with
    | none => ⟨400, [("error", "Invalid chatid parameter")]⟩
    | some c =>
      if ¬ ci then ⟨503, [("error", "Clients not initialized")]⟩
      else
        match eng.resumeRes c with
        | .error e => ⟨500, [("error", e)]⟩
        | .ok _ => ⟨200, [("message", "Resumed media"), ("chatid", chatid.getD "")]⟩

/-! ### Basic lemmas about the dict embedding -/

theorem filter_ne_eq_self (L : List String) (u : String) (h : u ∉ L) :
    L.filter (fun k => (k ≠ u : Bool)) = L := by
  apply List.filter_eq_self.mpr
  intro a ha
  have : a ≠ u := fun he => h (he ▸ ha)
  simp [this]

theorem lookupA_eraseKey_self (u : String) (l : List (String × String)) :
    lookupA u (eraseKey u l) = none := by
  induction l with
  | nil => rfl
  | cons p rest ih =>
    by_cases h : p.1 = u
    · simpa [eraseKey, List.filter_cons, h] using ih
    · simp [eraseKey, List.filter_cons, h, lookupA, ih] at ih ⊢
      simpa [eraseKey] using ih

/-- Characterization of `download_audio` on a key that is absent from
the cache index: the lock is created and (after the run) deleted again,
one network call is issued, and the outcome is the fresh temp file on
success or the wrapped failure (with the partial file removed) on
failure. -/
theorem download_audio_miss (b : Backend) (url api_name : String) (s : DLState)
    (hapi : (lookupA api_name DOWNLOAD_APIS).isNone = false)
    (hmiss : lookupA url s.download_cache = none)
    (hlock : url ∉ s.download_locks) :
    download_audio b url api_name s =
      match b api_name url with
      | .ok _ =>
        (.ok (tmpName s.tmp_counter),
         { s with download_cache := insertA url (tmpName s.tmp_counter) s.download_cache,
                  files := tmpName s.tmp_counter :: s.files,
                  fetch_log := s.fetch_log ++ [(api_name, url)],
                  tmp_counter := s.tmp_counter + 1 })
      | .error cause =>
        (.error (.downloadFailed api_name cause),
         { s with fetch_log := s.fetch_log ++ [(api_name, url)],
                  tmp_counter := s.tmp_counter + 1 }) := by
  obtain ⟨dc, dl, fs, lg, tc⟩ := s
  simp only at hmiss hlock
  simp only [download_audio, hapi, Bool.false_eq_true, if_false, hmiss]
  simp only [hlock, if_false, fetchBody, hmiss, fetchBody.fetchCore]
  cases b api_name url with
  | ok u =>
    simp only [List.filter]
    have : (url ≠ url : Bool) = false := by simp
    rw [this]
    rw [filter_ne_eq_self dl url hlock]
  | error cause =>
    simp only [List.filter, List.erase_cons_head]
    have : (url ≠ url : Bool) = false := by simp
    rw [this]
    rw [filter_ne_eq_self dl url hlock]

theorem lookupA_insertA_self (k v : String) (l : List (String × String)) :
    lookupA k (insertA k v l) = some v := by
  simp [insertA, lookupA]

/-- On a stale cache entry (file missing on disk) `download_audio`
first evicts the entry and then behaves exactly as on a cache miss. -/
theorem download_audio_stale_eq (b : Backend) (url api_name : String) (s : DLState)
    (hapi : (lookupA api_name DOWNLOAD_APIS).isNone = false)
    (p : String)
    (hhit : lookupA url s.download_cache = some p)
    (hfile : p ∉ s.files) :
    download_audio b url api_name s =
      download_audio b url api_name
        { s with download_cache := eraseKey url s.download_cache } := by
  obtain ⟨dc, dl, fs, lg, tc⟩ := s
  simp only at hhit hfile
  simp only [download_audio, hapi, Bool.false_eq_true, if_false, hhit, hfile,
    lookupA_eraseKey_self]

/-- Sequential runs of `download_audio` over a list of keys (the `/cache`
workload repeated for M distinct resources), threading the state. -/
def runAll (b : Backend) (api_name : String) (keys : List String) (s : DLState) : DLState :=
  keys.foldl (fun st k => (download_audio b k api_name st).2) s

/-- One `download_audio` run never leaves a lock entry behind when the
table was empty: every exit path either never creates the entry or
deletes it in the `finally`. -/
theorem download_audio_locks_empty (b : Backend) (url api_name : String) (s : DLState)
    (hD : s.download_locks = []) :
    (download_audio b url api_name s).2.download_locks = [] := by
  obtain ⟨dc, dl, fs, lg, tc⟩ := s
  simp only at hD
  subst hD
  by_cases hapi : (lookupA api_name DOWNLOAD_APIS).isNone
  · simp [download_audio, hapi]
  · rcases hc : lookupA url dc with _ | p
    · simp only [download_audio, hapi, Bool.false_eq_true, if_false, hc,
        List.not_mem_nil, fetchBody, fetchBody.fetchCore]
      rcases hb : b api_name url with _ | c <;> simp [hc, hb, List.filter]
    · by_cases hf : p ∈ fs
      · simp [download_audio, hapi, hc, hf]
      · simp only [download_audio, hapi, Bool.false_eq_true, if_false, hc, hf,
          List.not_mem_nil, fetchBody, fetchBody.fetchCore, lookupA_eraseKey_self]
        rcases hb : b api_name url with _ | c <;> simp [hb, List.filter]

/-- C3.  For every key present in the cache index: when the referenced
file exists on disk the call returns that path immediately, with the
whole state (lock table, fetch log, filesystem) untouched — no network
call, no lock creation or acquisition; when the file is missing, the
stale entry is evicted and the same lookup proceeds to a fresh network
fetch (the fetch log grows by this key) instead of returning the
dangling path, which also no longer appears in the index.  Hypotheses:
a configured `api_name`, and for the stale part a quiescent lock table
for the key and a temp name distinct from the dangling path. -/
theorem download_audio_cache_hit_and_stale_eviction
    (b : Backend) (url api_name : String) (s : DLState) (p : String)
    (hapi : (lookupA api_name DOWNLOAD_APIS).isNone = false)
    (hhit : lookupA url s.download_cache = some p) :
    (p ∈ s.files → download_audio b url api_name s = (.ok p, s)) ∧
    (p ∉ s.files → url ∉ s.download_locks → tmpName s.tmp_counter ≠ p →
      (download_audio b url api_name s).2.fetch_log = s.fetch_log ++ [(api_name, url)] ∧
      (download_audio b url api_name s).1 ≠ .ok p ∧
      lookupA url (download_audio b url api_name s).2.download_cache ≠ some p) := by
  constructor
  · intro hf
    obtain ⟨dc, dl, fs, lg, tc⟩ := s
    simp only at hhit hf
    simp [download_audio, hapi, hhit, hf]
  · intro hf hlock htmp
    rw [download_audio_stale_eq b url api_name s hapi p hhit hf]
    rw [download_audio_miss b url api_name _ hapi (by simpa using lookupA_eraseKey_self url s.download_cache) (by simpa using hlock)]
    rcases hb : b api_name url with c | c
    · exact ⟨rfl, by simp, by simp [lookupA_eraseKey_self]⟩
    · refine ⟨rfl, ?_, ?_⟩
      · simpa using htmp
      · simp only [lookupA_insertA_self, ne_eq, Option.some.injEq]
        exact htmp

/-- Always-succeeding backend oracle. -/
def okB : Backend := fun _ _ => .ok ()

/-- Always-failing backend oracle (every GET raises). -/
def failB : Backend := fun _ _ => .error "boom"

/-- A cached state: key `u` maps to path `f`, which exists on disk. -/
def sHit : DLState := ⟨[("u", "f")], [], ["f"], [], 0⟩

/-- A stale state: key `u` maps to path `f`, which is gone from disk. -/
def sStale : DLState := ⟨[("u", "f")], [], [], [], 0⟩

/-- Witness for C3 at concrete inputs: a cache hit returns the stored
path with untouched state; a stale entry leads to a real fetch and the
dangling path is not returned. -/
theorem download_audio_cache_hit_and_stale_eviction_witness :
    download_audio okB "u" "default" sHit = (.ok "f", sHit) ∧
    ((download_audio okB "u" "default" sStale).2.fetch_log = [("default", "u")] ∧
     (download_audio okB "u" "default" sStale).1 ≠ .ok "f" ∧
     lookupA "u" (download_audio okB "u" "default" sStale).2.download_cache ≠ some "f") := by
  have h := download_audio_cache_hit_and_stale_eviction okB "u" "default" sStale "f"
    (by decide) (by decide)
  have h2 := h.2 (by decide) (by decide) (by decide)
  refine ⟨?_, by simpa [sStale] using h2⟩
  exact (download_audio_cache_hit_and_stale_eviction okB "u" "default" sHit "f"
    (by decide) (by decide)).1 (by decide)

/-- C4.  On a failing fetch (the backend oracle covers timeout,
transport error and non-2xx alike, as all are caught by the same
`except`), `download_audio` returns the single wrapped
`Download via '<api>' failed: ...` error naming the backend, and the
final state differs from the initial one only in the observation log
and the temp-name counter: the partial temp file is gone from disk,
the cache index has no entry for the key, and the lock table is exactly
as before — in particular without an entry for the key. -/
theorem download_audio_failure_state_unchanged
    (b : Backend) (url api_name : String) (s : DLState) (cause : String)
    (hapi : (lookupA api_name DOWNLOAD_APIS).isNone = false)
    (hmiss : lookupA url s.download_cache = none)
    (hlock : url ∉ s.download_locks)
    (hb : b api_name url = .error cause) :
    download_audio b url api_name s =
      (.error (.downloadFailed api_name cause),
       { s with fetch_log := s.fetch_log ++ [(api_name, url)],
                tmp_counter := s.tmp_counter + 1 }) := by
  rw [download_audio_miss b url api_name s hapi hmiss hlock, hb]

/-- Witness for C4: a concrete failing fetch on an empty state leaves
cache, filesystem and lock table empty and reports the backend. -/
theorem download_audio_failure_state_unchanged_witness :
    download_audio failB "k" "default" dlInit =
      (.error (.downloadFailed "default" "boom"),
       { dlInit with fetch_log := [("default", "k")], tmp_counter := 1 }) := by
  have h := download_audio_failure_state_unchanged failB "k" "default" dlInit "boom"
    (by decide) (by decide) (by decide) rfl
  simpa [dlInit] using h

/-- C5.  The lock table is bounded: starting from an empty lock table,
running the fetches for M distinct keys to completion (in any order the
list presents them) leaves the lock table with no entries — each run
deletes its key's lock entry regardless of outcome. -/
theorem lock_table_empty_after_fetches
    (b : Backend) (api_name : String) (keys : List String) (s : DLState)
    (hnd : keys.Nodup) (hD : s.download_locks = []) :
    (runAll b api_name keys s).download_locks = [] := by
  induction keys generalizing s with
  | nil => exact hD
  | cons k ks ih =>
    exact ih _ (List.Nodup.of_cons hnd) (download_audio_locks_empty b k api_name s hD)

/-- Witness for C5: two distinct keys fetched from a fresh state leave
an empty lock table. -/
theorem lock_table_empty_after_fetches_witness :
    (runAll okB "default" ["a", "b"] dlInit).download_locks = [] :=
  lock_table_empty_after_fetches okB "default" ["a", "b"] dlInit (by decide) rfl

/-! ### `/cache` fallback (C2) -/

/-- C2 counterexample.  With every backend failing, the `/cache`
aggregate failure carries causes for `default` and `secondary` only:
`tertiary` is configured in the registry (`DOWNLOAD_APIS`) but is never
attempted and contributes no cause, so the details map does not cover
the full configured backend list. -/
theorem cache_song_tertiary_never_attempted :
    (cache_song failB (some "k") dlInit).1 =
      .bothFailed [("default", "Download via 'default' failed: boom"),
                   ("secondary", "Download via 'secondary' failed: boom")] ∧
    (cache_song failB (some "k") dlInit).2.fetch_log.map Prod.fst =
      ["default", "secondary"] ∧
    "tertiary" ∈ apiNames ∧
    "tertiary" ∉ (cache_song failB (some "k") dlInit).2.fetch_log.map Prod.fst := by
  decide

/-- C2 amended.  `/cache` attempts `default` then `secondary` (never
`tertiary`): on a first-backend success it returns immediately with
that backend's name after a single network call; on a first failure it
falls back once; when both attempted backends fail it returns the
aggregate whose details map one cause per attempted backend, keyed by
backend name, and performs no further attempt — the fetch log shows
exactly the two calls. -/
theorem cache_song_fallback_two_backends
    (b : Backend) (s : DLState) (u c1 c2 : String)
    (hu : u ≠ "") (hmiss : lookupA u s.download_cache = none)
    (hlock : u ∉ s.download_locks) :
    (b "default" u = .ok () →
      cache_song b (some u) s =
        (.success "default",
         { s with download_cache := insertA u (tmpName s.tmp_counter) s.download_cache,
                  files := tmpName s.tmp_counter :: s.files,
                  fetch_log := s.fetch_log ++ [("default", u)],
                  tmp_counter := s.tmp_counter + 1 })) ∧
    (b "default" u = .error c1 → b "secondary" u = .ok () →
      cache_song b (some u) s =
        (.success "secondary",
         { s with download_cache := insertA u (tmpName (s.tmp_counter + 1)) s.download_cache,
                  files := tmpName (s.tmp_counter + 1) :: s.files,
                  fetch_log := s.fetch_log ++ [("default", u), ("secondary", u)],
                  tmp_counter := s.tmp_counter + 2 })) ∧
    (b "default" u = .error c1 → b "secondary" u = .error c2 →
      cache_song b (some u) s =
        (.bothFailed [("default", "Download via 'default' failed: " ++ c1),
                      ("secondary", "Download via 'secondary' failed: " ++ c2)],
         { s with fetch_log := s.fetch_log ++ [("default", u), ("secondary", u)],
                  tmp_counter := s.tmp_counter + 2 })) := by
  have hm : argMissing (some u) = false := by simp [argMissing, hu]
  refine ⟨?_, ?_, ?_⟩
  · intro hb
    simp only [cache_song, hm, Bool.false_eq_true, if_false, Option.getD_some]
    rw [download_audio_miss b u "default" s (by decide) hmiss hlock, hb]
  · intro hb1 hb2
    have h1 := download_audio_failure_state_unchanged b u "default" s c1
      (by decide) hmiss hlock hb1
    have h2 := download_audio_miss b u "secondary"
      { s with fetch_log := s.fetch_log ++ [("default", u)],
               tmp_counter := s.tmp_counter + 1 }
      (by decide) (by simpa using hmiss) (by simpa using hlock)
    rw [hb2] at h2
    simp only [cache_song, hm, Bool.false_eq_true, if_false, Option.getD_some, h1, h2]
    simp
  · intro hb1 hb2
    have h1 := download_audio_failure_state_unchanged b u "default" s c1
      (by decide) hmiss hlock hb1
    have h2 := download_audio_failure_state_unchanged b u "secondary"
      { s with fetch_log := s.fetch_log ++ [("default", u)],
               tmp_counter := s.tmp_counter + 1 } c2
      (by decide) (by simpa using hmiss) (by simpa using hlock) hb2
    simp only [cache_song, hm, Bool.false_eq_true, if_false, Option.getD_some, h1, h2]
    simp [DLErr.toMessage]

/-- A backend oracle on which only `secondary` succeeds. -/
def secB : Backend := fun api _ => if api = "secondary" then .ok () else .error "down"

/-- Witness for the amended C2 at concrete inputs: `default` fails,
`secondary` succeeds, the handler returns `api_used = secondary` after
exactly the two attempts. -/
theorem cache_song_fallback_two_backends_witness :
    cache_song secB (some "k") dlInit =
      (.success "secondary",
       { dlInit with download_cache := insertA "k" (tmpName 1) [],
                     files := [tmpName 1],
                     fetch_log := [("default", "k"), ("secondary", "k")],
                     tmp_counter := 2 }) := by
  have h := (cache_song_fallback_two_backends secB dlInit "k" "down" "down"
    (by decide) rfl (by decide)).2.1 rfl rfl
  simpa [dlInit] using h

/-! ### `/stop` (C6) -/

/-- An engine whose `leave_call` reports an error for a chat with no
active call (the behaviour of the real call engine when asked to leave
a call it is not in), everything else succeeding. -/
def engNoCall : Engine :=
  ⟨fun _ _ => .ok (), fun _ => .ok (), fun _ => .ok (), fun _ => .error "NOT_IN_CALL"⟩

/-- An engine on which every call succeeds. -/
def engAllOk : Engine :=
  ⟨fun _ _ => .ok (), fun _ => .ok (), fun _ => .ok (), fun _ => .ok ()⟩

/-- C6 counterexample.  The handler tracks no per-chat session and adds
no idempotency: it forwards to the engine's `leave_call` and surfaces
any engine exception as a 500.  With the engine reporting an error for
a chat that has no active call, `/stop` returns a 500 error — not
success — and, being stateless, returns it again on the second call. -/
theorem stop_idle_chat_engine_error :
    stop engNoCall true (some "123") = ⟨500, [("error", "NOT_IN_CALL")]⟩ ∧
    (stop engNoCall true (some "123")).status ≠ 200 := by
  decide

/-- C6 amended.  `/stop` is a stateless pass-through: for a valid chat
id it returns success exactly when the engine's `leave_call` succeeds
for that chat, and surfaces an engine error as a 500 with the engine's
message.  Repeated calls return the identical response (the handler
keeps no state), so stopping twice is success both times if and only if
the engine does not treat leaving an idle chat as an error. -/
theorem stop_passthrough_engine (eng : Engine) (cs : String) (c : Int)
    (hp : parseInt cs = some c) :
    (eng.leaveRes c = .ok () →
      stop eng true (some cs) = ⟨200, [("message", "Stopped media"), ("chatid", cs)]⟩) ∧
    (∀ m, eng.leaveRes c = .error m →
      stop eng true (some cs) = ⟨500, [("error", m)]⟩) := by
  have hcs : cs ≠ "" := by
    intro h
    rw [h] at hp
    have : parseInt "" = none := by decide
    rw [this] at hp
    cases hp
  have hm : argMissing (some cs) = false := by simp [argMissing, hcs]
  constructor
  · intro hok
    simp only [stop, hm, Bool.false_eq_true, if_false, Option.getD_some, hp, hok,
      not_true, ite_false, ite_true]
  · intro m herr
    simp only [stop, hm, Bool.false_eq_true, if_false, Option.getD_some, hp, herr,
      not_true, ite_false, ite_true]

/-- Witness for the amended C6: with a concrete always-succeeding
engine the handler returns 200, with a concrete erroring engine it
returns the 500 wrapper. -/
theorem stop_passthrough_engine_witness :
    stop engAllOk true (some "7") = ⟨200, [("message", "Stopped media"), ("chatid", "7")]⟩ ∧
    stop engNoCall true (some "7") = ⟨500, [("error", "NOT_IN_CALL")]⟩ :=
  ⟨(stop_passthrough_engine engAllOk "7" 7 (by decide)).1 rfl,
   (stop_passthrough_engine engNoCall "7" 7 (by decide)).2 "NOT_IN_CALL" rfl⟩

/-! ### `/pause` and `/resume` (C7) -/

/-- An engine whose `pause`/`resume` report an error for a chat that
has no stream (the behaviour of the real call engine), everything else
succeeding. -/
def engNoSession : Engine :=
  ⟨fun _ _ => .ok (), fun _ => .error "NOT_IN_CALL", fun _ => .error "NOT_IN_CALL",
   fun _ => .ok ()⟩

/-- C7 counterexample.  No `NoActiveSession` error exists anywhere in
the code: the handlers track no sessions and pattern-match nothing; for
a chat with no session they surface the engine's raw exception text as
the generic 500 failure wrapper — the same shape every other engine
error gets — not a distinct request error. -/
theorem pause_resume_no_session_generic_error :
    pause engNoSession true (some "5") = ⟨500, [("error", "NOT_IN_CALL")]⟩ ∧
    resume engNoSession true (some "5") = ⟨500, [("error", "NOT_IN_CALL")]⟩ := by
  decide

/-- C7 amended.  For a chat with no tracked session, `pause` and
`resume` forward to the engine and surface whatever error it raises as
a generic 500 response carrying the engine's message verbatim; the
handler never crashes (every engine error is caught), but no
`NoActiveSession`-typed error is produced. -/
theorem pause_resume_generic_500 (eng : Engine) (cs m1 m2 : String) (c : Int)
    (hp : parseInt cs = some c)
    (h1 : eng.pauseRes c = .error m1) (h2 : eng.resumeRes c = .error m2) :
    pause eng true (some cs) = ⟨500, [("error", m1)]⟩ ∧
    resume eng true (some cs) = ⟨500, [("error", m2)]⟩ := by
  have hcs : cs ≠ "" := by
    intro h
    rw [h] at hp
    have : parseInt "" = none := by decide
    rw [this] at hp
    cases hp
  have hm : argMissing (some cs) = false := by simp [argMissing, hcs]
  constructor
  · simp only [pause, hm, Bool.false_eq_true, if_false, Option.getD_some, hp, h1,
      not_true, ite_false, ite_true]
  · simp only [resume, hm, Bool.false_eq_true, if_false, Option.getD_some, hp, h2,
      not_true, ite_false, ite_true]

/-- Witness for the amended C7 at a concrete engine and chat. -/
theorem pause_resume_generic_500_witness :
    pause engNoSession true (some "5") = ⟨500, [("error", "NOT_IN_CALL")]⟩ ∧
    resume engNoSession true (some "5") = ⟨500, [("error", "NOT_IN_CALL")]⟩ :=
  pause_resume_generic_500 engNoSession "5" "NOT_IN_CALL" "NOT_IN_CALL" 5
    (by decide) rfl rfl

/-! ### `/play` validation, selection and fallback-freedom (C8, C9, C10) -/

theorem api_map_valid (sel key : String) (h : lookupA sel api_map = some key) :
    (lookupA key DOWNLOAD_APIS).isNone = false := by
  simp only [api_map, lookupA] at h
  split_ifs at h with h1 h2 h3
  · injection h with h'
    subst h'
    decide
  · injection h with h'
    subst h'
    decide
  · injection h with h'
    subst h'
    decide

theorem api_map_sel_ne_empty (sel key : String) (h : lookupA sel api_map = some key) :
    sel ≠ "" := by
  intro he
  rw [he] at h
  have : lookupA "" api_map = none := by decide
  rw [this] at h
  cases h

/-- C8.  A `/play` request whose `chatid` does not parse as an integer
is answered 400 before any effect: the download state is untouched (no
backend fetch) and no engine call is made, whatever the other
parameters; a request whose `api` selector is none of the valid options
is answered 400, also effect-free, with a message listing the valid
options (`Choose 1, 2 or 3`). -/
theorem play_validation_before_effects
    (eng : Engine) (ci : Bool) (b : Backend) (s : DLState)
    (cs vu a : String) (api : Option String) :
    (cs ≠ "" → vu ≠ "" → parseInt cs = none →
      play eng ci b (some cs) (some vu) api s =
        (⟨400, [("error", "Invalid chatid parameter")]⟩, s, [])) ∧
    (cs ≠ "" → vu ≠ "" → (∃ c, parseInt cs = some c) → a ≠ "" →
      lookupA a api_map = none →
      play eng ci b (some cs) (some vu) (some a) s =
        (⟨400, [("error", "Invalid api '" ++ a ++ "'. Choose 1, 2 or 3.")]⟩, s, [])) := by
  constructor
  · intro hcs hvu hp
    have hm1 : argMissing (some cs) = false := by simp [argMissing, hcs]
    have hm2 : argMissing (some vu) = false := by simp [argMissing, hvu]
    simp [play, hm1, hm2, hp]
  · rintro hcs hvu ⟨c, hp⟩ ha hmap
    have hm1 : argMissing (some cs) = false := by simp [argMissing, hcs]
    have hm2 : argMissing (some vu) = false := by simp [argMissing, hvu]
    have hd : orDefault (some a) "1" = a := by simp [orDefault, ha]
    simp [play, hm1, hm2, hp, hd, hmap]

/-- Witness for C8: `chatid=not-a-number` and `api=9` each yield a 400
with untouched state and no engine call, at concrete inputs. -/
theorem play_validation_before_effects_witness :
    play engAllOk true okB (some "not-a-number") (some "u") none dlInit =
      (⟨400, [("error", "Invalid chatid parameter")]⟩, dlInit, []) ∧
    play engAllOk true okB (some "5") (some "u") (some "9") dlInit =
      (⟨400, [("error", "Invalid api '9'. Choose 1, 2 or 3.")]⟩, dlInit, []) :=
  ⟨(play_validation_before_effects engAllOk true okB dlInit "not-a-number" "u" "9" none).1
      (by decide) (by decide) (by decide),
   (play_validation_before_effects engAllOk true okB dlInit "5" "u" "9" (some "9")).2
      (by decide) (by decide) ⟨5, by decide⟩ (by decide) (by decide)⟩

/-- C9.  `/play` attempts exactly one backend — the one its selector
names: when that backend's fetch fails, the wrapped failure is returned
as a 500, the fetch log has grown by that single backend's call only
(no fallback to any other backend), and the engine is never invoked. -/
theorem play_single_backend_no_fallback
    (eng : Engine) (b : Backend) (s : DLState) (cs vu sel key cause : String) (c : Int)
    (hvu : vu ≠ "") (hp : parseInt cs = some c)
    (hsel : lookupA sel api_map = some key)
    (hmiss : lookupA vu s.download_cache = none) (hlock : vu ∉ s.download_locks)
    (hb : b key vu = .error cause) :
    play eng true b (some cs) (some vu) (some sel) s =
      (⟨500, [("error", "Download via '" ++ key ++ "' failed: " ++ cause)]⟩,
       { s with fetch_log := s.fetch_log ++ [(key, vu)],
                tmp_counter := s.tmp_counter + 1 },
       []) := by
  have hcs : cs ≠ "" := by
    intro h
    rw [h] at hp
    have : parseInt "" = none := by decide
    rw [this] at hp
    cases hp
  have hm1 : argMissing (some cs) = false := by simp [argMissing, hcs]
  have hm2 : argMissing (some vu) = false := by simp [argMissing, hvu]
  have hd : orDefault (some sel) "1" = sel := by
    simp [orDefault, api_map_sel_ne_empty sel key hsel]
  have h1 := download_audio_failure_state_unchanged b vu key s cause
    (api_map_valid sel key hsel) hmiss hlock hb
  simp [play, hm1, hm2, hp, hd, hsel, h1, DLErr.toMessage]

/-- Witness for C9: selector `2` names `secondary`; its failure comes
back as a 500 naming `secondary`, with exactly one fetch logged and no
engine call. -/
theorem play_single_backend_no_fallback_witness :
    play engAllOk true failB (some "7") (some "u") (some "2") dlInit =
      (⟨500, [("error", "Download via 'secondary' failed: boom")]⟩,
       { dlInit with fetch_log := [("secondary", "u")], tmp_counter := 1 },
       []) := by
  have h := play_single_backend_no_fallback engAllOk failB dlInit "7" "u" "2" "secondary"
    "boom" 7 (by decide) (by decide) (by decide) rfl (by decide) rfl
  simpa [dlInit] using h

/-- C10.  A `/play` request that omits `api` or supplies it empty
defaults the selector to `1`: the `default` backend is the one fetched
(sole entry appended to the fetch log) and the success response echoes
`api_selected` as `1`. -/
theorem play_api_defaults_to_selector_one
    (eng : Engine) (b : Backend) (s : DLState) (cs vu : String) (c : Int)
    (api : Option String)
    (hapi : api = none ∨ api = some "")
    (hvu : vu ≠ "") (hp : parseInt cs = some c)
    (hmiss : lookupA vu s.download_cache = none) (hlock : vu ∉ s.download_locks)
    (hb : b "default" vu = .ok ())
    (he : eng.playRes c (tmpName s.tmp_counter) = .ok ()) :
    play eng true b (some cs) (some vu) api s =
      (⟨200, [("message", "Playing media"), ("chatid", cs), ("url", vu),
              ("api_selected", "1")]⟩,
       { s with download_cache := insertA vu (tmpName s.tmp_counter) s.download_cache,
                files := tmpName s.tmp_counter :: s.files,
                fetch_log := s.fetch_log ++ [("default", vu)],
                tmp_counter := s.tmp_counter + 1 },
       [(c, tmpName s.tmp_counter)]) := by
  have hcs : cs ≠ "" := by
    intro h
    rw [h] at hp
    have : parseInt "" = none := by decide
    rw [this] at hp
    cases hp
  have hm1 : argMissing (some cs) = false := by simp [argMissing, hcs]
  have hm2 : argMissing (some vu) = false := by simp [argMissing, hvu]
  have hd : orDefault api "1" = "1" := by
    rcases hapi with h | h <;> simp [orDefault, h]
  have h1 := download_audio_miss b vu "default" s (by decide) hmiss hlock
  rw [hb] at h1
  have hsel : lookupA "1" api_map = some "default" := by decide
  simp [play, hm1, hm2, hp, hd, hsel, h1, he]

/-- Witness for C10: omitting `api` selects backend `default` and the
response echoes `api_selected = 1`, at concrete inputs. -/
theorem play_api_defaults_to_selector_one_witness :
    play engAllOk true okB (some "7") (some "u") none dlInit =
      (⟨200, [("message", "Playing media"), ("chatid", "7"), ("url", "u"),
              ("api_selected", "1")]⟩,
       { dlInit with download_cache := insertA "u" (tmpName 0) [],
                     files := [tmpName 0],
                     fetch_log := [("default", "u")],
                     tmp_counter := 1 },
       [(7, tmpName 0)]) := by
  have h := play_api_defaults_to_selector_one engAllOk okB dlInit "7" "u" 7 none
    (Or.inl rfl) (by decide) (by decide) rfl (by decide) rfl rfl
  simpa [dlInit] using h

/-! ### Cooperative small-step model of concurrent `download_audio`
calls for one key (C1)

N coroutines run `download_audio` for the same (uncached) resource key
on one event loop.  Code between two suspension points runs atomically;
the suspension points are exactly those of the source: waiting on
`download_locks[url]` (`async with`), and the network/disk I/O of the
GET (modelled as a single suspension, since while a task streams no
other task can alter the observable state except by queueing or
starting its own fetch).  `asyncio.Lock` fairness is modelled as in
CPython: FIFO waiters; a release with waiters hands the lock to the
first one, which resumes in a later scheduler slot. -/

/-- Status of one coroutine running `download_audio` for the key. -/
inductive TStat where
  | start
  | waiting (lk : Nat)
  | acquired (lk : Nat)
  | fetching (lk : Nat) (idx : Nat) (file : Nat)
  | doneOk (p : Nat)
  | doneErr
deriving DecidableEq, Repr

/-- One `asyncio.Lock` object: identity, held flag, FIFO waiter queue
(task indices).  Objects stay reachable while a coroutine references
them even after `del download_locks[url]` drops the dict binding. -/
structure LockObj where
  lid : Nat
  held : Bool
  waiters : List Nat
deriving DecidableEq, Repr

/-- Global state of the event loop: the single key's cache slot
(`download_cache.get(url)`), the set of files on disk, the lock-table
binding (`download_locks.get(url)`), all lock objects ever created,
fresh-id counters, the number of GETs issued, and the task array. -/
structure CState where
  ntasks : Nat
  cache : Option Nat
  files : List Nat
  lockTable : Option Nat
  locks : List LockObj
  nextLock : Nat
  nextFile : Nat
  fetchCount : Nat
  tasks : Nat → TStat

/-- Replace task `i`'s status. -/
def setTask (s : CState) (i : Nat) (t : TStat) : CState :=
  { s with tasks := Function.update s.tasks i t }

/-- Find a lock object by identity. -/
def findLock (s : CState) (lk : Nat) : Option LockObj :=
  s.locks.find? (fun L => L.lid == lk)

/-- Update a lock object in place. -/
def mapLock (s : CState) (lk : Nat) (f : LockObj → LockObj) : CState :=
  { s with locks := s.locks.map (fun L => if L.lid == lk then f L else L) }

/-- `lock.release()`: with waiters, hand the lock to the first waiter
(it resumes as `acquired` when next scheduled); otherwise unlock. -/
def releaseLock (s : CState) (lk : Nat) : CState :=
  match findLock s lk with
  | none => s
  | some L =>
    match L.waiters with
    | [] => mapLock s lk (fun l => { l with held := false })
    | w :: ws => setTask (mapLock s lk (fun l => { l with waiters := ws })) w (.acquired lk)

/-- Create the temp file and issue the GET: the task suspends in
`fetching`, the GET is counted at issue time. -/
def issueFetch (s : CState) (i lk : Nat) : CState :=
  setTask
    { s with files := s.nextFile :: s.files,
             nextFile := s.nextFile + 1,
             fetchCount := s.fetchCount + 1 }
    i (.fetching lk s.fetchCount s.nextFile)

/-- Holding lock `lk`, run the double-checked cache read: on a hit with
the file present, release and return (this path does not delete the
lock-table entry — the early return precedes the `try`/`finally`);
otherwise start the fetch. -/
def recheckFetch (s : CState) (i lk : Nat) : CState :=
  match s.cache with
  | some p =>
    if p ∈ s.files then setTask (releaseLock s lk) i (.doneOk p)
    else issueFetch s i lk
  | none => issueFetch s i lk

/-- The first atomic segment after the cache miss: create the lock if
the table has no binding (`if url not in download_locks`), then acquire
`download_locks[url]`; an uncontended acquire does not suspend, so the
segment continues into the double-check and the fetch issue. -/
def lockPhase (s : CState) (i : Nat) : CState :=
  match s.lockTable with
  | none =>
    let L := s.nextLock
    let s' : CState :=
      { s with lockTable := some L,
               locks := s.locks ++ [⟨L, true, []⟩],
               nextLock := L + 1 }
    recheckFetch s' i L
  | some L =>
    match findLock s L with
    | none => s
    | some lob =>
      if lob.held then
        setTask (mapLock s L (fun l => { l with waiters := l.waiters ++ [i] })) i (.waiting L)
      else recheckFetch (mapLock s L (fun l => { l with held := true })) i L

/-- One scheduler slot given to task `i`.  `backend idx` says whether
the `idx`-th GET issued in this run succeeds.  A completing fetch runs
to the end of `download_audio`: install the cache entry (success) or
remove the partial file (failure), then the `finally` deletes whatever
lock-table binding exists for the key — possibly another lock's — and
the `async with` releases the lock this task actually holds. -/
def stepT (backend : Nat → Bool) (s : CState) (i : Nat) : CState :=
  if i < s.ntasks then
    match s.tasks i with
    | .start =>
      match s.cache with
      | some p =>
        if p ∈ s.files then setTask s i (.doneOk p)
        else lockPhase { s with cache := none } i
      | none => lockPhase s i
    | .acquired lk => recheckFetch s i lk
    | .fetching lk idx f =>
      if backend idx then
        releaseLock (setTask { s with cache := some f, lockTable := none } i (.doneOk f)) lk
      else
        releaseLock (setTask { s with files := s.files.erase f, lockTable := none } i .doneErr) lk
    | _ => s
  else s

/-- Run a schedule (list of scheduler choices). -/
def runSched (backend : Nat → Bool) (s : CState) (sched : List Nat) : CState :=
  sched.foldl (stepT backend) s

/-- N fresh callers, key uncached, empty disk, no locks. -/
def initState (n : Nat) : CState :=
  ⟨n, none, [], none, [], 0, 0, 0, fun _ => .start⟩

/-- Is the task suspended in the network fetch? -/
def isFetching : TStat → Bool
  | .fetching _ _ _ => true
  | _ => false

/-- Has the task returned (normally or by raising)? -/
def isDone : TStat → Bool
  | .doneOk _ => true
  | .doneErr => true
  | _ => false

/-- Number of fetches for the key in flight at once. -/
def countFetching (s : CState) : Nat :=
  (List.range s.ntasks).countP (fun i => isFetching (s.tasks i))

/-- Backend for the C1 counterexample: the first GET fails (e.g. times
out), later ones succeed. -/
def cexBackend : Nat → Bool := fun idx => decide (idx ≠ 0)

/-- Backend on which every GET succeeds. -/
def succB : Nat → Bool := fun _ => true

@[simp] theorem setTask_ntasks (s : CState) (i : Nat) (t : TStat) :
    (setTask s i t).ntasks = s.ntasks := rfl

@[simp] theorem setTask_cache (s : CState) (i : Nat) (t : TStat) :
    (setTask s i t).cache = s.cache := rfl

@[simp] theorem setTask_files (s : CState) (i : Nat) (t : TStat) :
    (setTask s i t).files = s.files := rfl

@[simp] theorem setTask_lockTable (s : CState) (i : Nat) (t : TStat) :
    (setTask s i t).lockTable = s.lockTable := rfl

@[simp] theorem setTask_locks (s : CState) (i : Nat) (t : TStat) :
    (setTask s i t).locks = s.locks := rfl

@[simp] theorem setTask_fetchCount (s : CState) (i : Nat) (t : TStat) :
    (setTask s i t).fetchCount = s.fetchCount := rfl

@[simp] theorem setTask_tasks (s : CState) (i : Nat) (t : TStat) :
    (setTask s i t).tasks = Function.update s.tasks i t := rfl

@[simp] theorem mapLock_ntasks (s : CState) (lk : Nat) (f : LockObj → LockObj) :
    (mapLock s lk f).ntasks = s.ntasks := rfl

@[simp] theorem mapLock_cache (s : CState) (lk : Nat) (f : LockObj → LockObj) :
    (mapLock s lk f).cache = s.cache := rfl

@[simp] theorem mapLock_files (s : CState) (lk : Nat) (f : LockObj → LockObj) :
    (mapLock s lk f).files = s.files := rfl

@[simp] theorem mapLock_lockTable (s : CState) (lk : Nat) (f : LockObj → LockObj) :
    (mapLock s lk f).lockTable = s.lockTable := rfl

@[simp] theorem mapLock_locks (s : CState) (lk : Nat) (f : LockObj → LockObj) :
    (mapLock s lk f).locks = s.locks.map (fun L => if L.lid == lk then f L else L) := rfl

@[simp] theorem mapLock_fetchCount (s : CState) (lk : Nat) (f : LockObj → LockObj) :
    (mapLock s lk f).fetchCount = s.fetchCount := rfl

@[simp] theorem mapLock_tasks (s : CState) (lk : Nat) (f : LockObj → LockObj) :
    (mapLock s lk f).tasks = s.tasks := rfl

/-- Invariant, phase 0 (all-success runs): nothing has happened yet. -/
def InvP0 (s : CState) : Prop :=
  s.cache = none ∧ s.lockTable = none ∧ s.locks = [] ∧ s.files = [] ∧
  s.nextLock = 0 ∧ s.nextFile = 0 ∧ s.fetchCount = 0 ∧ ∀ i, s.tasks i = .start

/-- Invariant, phase 1 (all-success runs): the single fetch is in
flight; lock 0 is the only lock, bound in the table and held by the
fetching task `j`; everyone else is fresh or queued on lock 0. -/
def InvP1 (s : CState) : Prop :=
  ∃ j ws,
    s.cache = none ∧ s.lockTable = some 0 ∧ s.locks = [⟨0, true, ws⟩] ∧
    s.files = [0] ∧ s.fetchCount = 1 ∧
    j < s.ntasks ∧ s.tasks j = .fetching 0 0 0 ∧
    ws.Nodup ∧ (∀ i, i ∈ ws ↔ s.tasks i = .waiting 0) ∧
    (∀ i, s.tasks i = .start ∨ s.tasks i = .waiting 0 ∨ i = j)

/-- Invariant, phase 2 (all-success runs): the fetch completed; the
cache holds file 0, the lock-table binding is gone, the queue on the
(orphaned) lock 0 drains one task per slot, each returning the cached
path. -/
def InvP2 (s : CState) : Prop :=
  ∃ h ws,
    s.cache = some 0 ∧ s.lockTable = none ∧ s.locks = [⟨0, h, ws⟩] ∧
    s.files = [0] ∧ s.fetchCount = 1 ∧
    ws.Nodup ∧ (∀ i, i ∈ ws ↔ s.tasks i = .waiting 0) ∧
    (∀ i, s.tasks i = .start ∨ s.tasks i = .waiting 0 ∨
          s.tasks i = .acquired 0 ∨ s.tasks i = .doneOk 0) ∧
    ((h = true ∧ ∃ a, s.tasks a = .acquired 0 ∧ ∀ i, s.tasks i = .acquired 0 → i = a) ∨
     (h = false ∧ ws = [] ∧ ∀ i, s.tasks i ≠ .acquired 0))

/-- The reachable-state invariant of all-success runs. -/
def InvC (s : CState) : Prop := InvP0 s ∨ InvP1 s ∨ InvP2 s

theorem inv0_step (s : CState) (i : Nat) (h : InvP0 s) : InvC (stepT succB s i) := by
  obtain ⟨hc, hlt, hlk, hf, hnl, hnf, hfc, ht⟩ := h
  by_cases hi : i < s.ntasks
  · simp only [stepT, hi, if_true, ht i, hc, lockPhase, hlt, recheckFetch, issueFetch,
      setTask_cache, setTask_tasks]
    refine Or.inr (Or.inl ⟨i, [], ?_, ?_, ?_, ?_, ?_, ?_, ?_, ?_, ?_, ?_⟩)
    · simpa using hc
    · simp [hnl]
    · simp [hlk, hnl]
    · simp [hf, hnf]
    · simp [hfc]
    · simpa using hi
    · simp [Function.update_apply, hnl, hfc, hnf]
    · exact List.nodup_nil
    · intro k
      simp only [List.not_mem_nil, false_iff, Function.update_apply]
      by_cases hk : k = i
      · simp [hk]
      · simp [hk, ht k]
    · intro k
      by_cases hk : k = i
      · exact Or.inr (Or.inr hk)
      · exact Or.inl (by simp [Function.update_apply, hk, ht k])
  · simp only [stepT, hi, if_false]
    exact Or.inl ⟨hc, hlt, hlk, hf, hnl, hnf, hfc, ht⟩

theorem inv1_step (s : CState) (i : Nat) (h : InvP1 s) : InvC (stepT succB s i) := by
  obtain ⟨j, ws, hc, hlt, hlk, hf, hfc, hj, htj, hnd, hcorr, hall⟩ := h
  by_cases hi : i < s.ntasks
  swap
  · simp only [stepT, hi, if_false]
    exact Or.inr (Or.inl ⟨j, ws, hc, hlt, hlk, hf, hfc, hj, htj, hnd, hcorr, hall⟩)
  rcases hall i with hstart | hwait | rfl
  · -- a fresh task misses the cache and queues on lock 0
    have hij : i ≠ j := by
      intro he
      rw [he, htj] at hstart
      cases hstart
    have hiw : i ∉ ws := by
      intro hmem
      have := (hcorr i).mp hmem
      rw [hstart] at this
      cases this
    simp only [stepT, hi, if_true, hstart, hc, lockPhase, hlt, findLock, hlk,
      List.find?, beq_self_eq_true, if_true, setTask_tasks]
    refine Or.inr (Or.inl ⟨j, ws ++ [i], ?_, ?_, ?_, ?_, ?_, ?_, ?_, ?_, ?_, ?_⟩)
    · simpa using hc
    · simpa using hlt
    · simp [hlk]
    · simpa using hf
    · simpa using hfc
    · simpa using hj
    · simp [Function.update_noteq (Ne.symm hij), htj]
    · simpa [List.concat_eq_append] using List.Nodup.concat hiw hnd
    · intro k
      simp only [List.mem_append, List.mem_singleton, Function.update_apply]
      by_cases hk : k = i
      · simp [hk, hiw]
      · simp [hk, hcorr k]
    · intro k
      by_cases hk : k = i
      · subst hk
        exact Or.inr (Or.inl (by simp [Function.update_apply]))
      · rcases hall k with h1 | h2 | h3
        · exact Or.inl (by simp [Function.update_apply, hk, h1])
        · exact Or.inr (Or.inl (by simp [Function.update_apply, hk, h2]))
        · exact Or.inr (Or.inr h3)
  · -- a queued task gets a slot while still blocked: no state change
    simp only [stepT, hi, if_true, hwait]
    exact Or.inr (Or.inl ⟨j, ws, hc, hlt, hlk, hf, hfc, hj, htj, hnd, hcorr, hall⟩)
  · -- the fetching task completes (all-success run): install, unlock
    cases ws with
    | nil =>
      simp only [stepT, hi, if_true, htj, succB, if_true, releaseLock, findLock,
        setTask_locks, hlk, List.find?, beq_self_eq_true]
      refine Or.inr (Or.inr ⟨false, [], ?_, ?_, ?_, ?_, ?_, ?_, ?_, ?_, ?_⟩)
      · simp
      · simp
      · simp
      · simpa using hf
      · simpa using hfc
      · exact List.nodup_nil
      · intro k
        simp only [List.not_mem_nil, false_iff, mapLock_tasks, setTask_tasks]
        intro hkw
        by_cases hk : k = i
        · rw [hk, Function.update_same] at hkw
          cases hkw
        · rw [Function.update_noteq hk] at hkw
          exact absurd ((hcorr k).mpr hkw) (List.not_mem_nil k)
      · intro k
        simp only [mapLock_tasks, setTask_tasks]
        by_cases hk : k = i
        · exact Or.inr (Or.inr (Or.inr (by rw [hk, Function.update_same])))
        · rw [Function.update_noteq hk]
          rcases hall k with h1 | h2 | h3
          · exact Or.inl h1
          · exact absurd ((hcorr k).mpr h2) (List.not_mem_nil k)
          · exact absurd h3 hk
      · refine Or.inr ⟨rfl, rfl, ?_⟩
        intro k hk
        simp only [mapLock_tasks, setTask_tasks] at hk
        by_cases hki : k = i
        · rw [hki, Function.update_same] at hk
          cases hk
        · rw [Function.update_noteq hki] at hk
          rcases hall k with h1 | h2 | h3
          · rw [h1] at hk
            cases hk
          · rw [h2] at hk
            cases hk
          · exact hki h3
    | cons w ws' =>
      have hwmem : w ∈ w :: ws' := List.mem_cons_self w ws'
      have hwj : w ≠ i := by
        intro he
        have := (hcorr w).mp hwmem
        rw [he, htj] at this
        cases this
      have hwn : w ∉ ws' := (List.nodup_cons.mp hnd).1
      have hnd' : ws'.Nodup := (List.nodup_cons.mp hnd).2
      have hjn : i ∉ ws' := by
        intro hmem
        have := (hcorr i).mp (List.mem_cons_of_mem w hmem)
        rw [htj] at this
        cases this
      simp only [stepT, hi, if_true, htj, succB, if_true, releaseLock, findLock,
        setTask_locks, hlk, List.find?, beq_self_eq_true]
      refine Or.inr (Or.inr ⟨true, ws', ?_, ?_, ?_, ?_, ?_, hnd', ?_, ?_, ?_⟩)
      · simp
      · simp
      · simp
      · simpa using hf
      · simpa using hfc
      · intro k
        simp only [setTask_tasks, mapLock_tasks]
        by_cases hkw : k = w
        · rw [hkw, Function.update_same]
          simp [hwn]
        · rw [Function.update_noteq hkw]
          by_cases hki : k = i
          · rw [hki, Function.update_same]
            simp [hjn, hki]
          · rw [Function.update_noteq hki]
            have := hcorr k
            rw [List.mem_cons] at this
            constructor
            · intro hmem
              exact this.mp (Or.inr hmem)
            · intro hkwait
              rcases this.mpr hkwait with h1 | h1
              · exact absurd h1 hkw
              · exact h1
      · intro k
        simp only [setTask_tasks, mapLock_tasks]
        by_cases hkw : k = w
        · exact Or.inr (Or.inr (Or.inl (by rw [hkw, Function.update_same])))
        · rw [Function.update_noteq hkw]
          by_cases hki : k = i
          · exact Or.inr (Or.inr (Or.inr (by rw [hki, Function.update_same])))
          · rw [Function.update_noteq hki]
            rcases hall k with h1 | h2 | h3
            · exact Or.inl h1
            · exact Or.inr (Or.inl h2)
            · exact absurd h3 hki
      · refine Or.inl ⟨rfl, w, ?_, ?_⟩
        · simp only [setTask_tasks, mapLock_tasks]
          rw [Function.update_same]
        · intro k hk
          simp only [setTask_tasks, mapLock_tasks] at hk
          by_cases hkw : k = w
          · exact hkw
          · rw [Function.update_noteq hkw] at hk
            by_cases hki : k = i
            · rw [hki, Function.update_same] at hk
              cases hk
            · rw [Function.update_noteq hki] at hk
              rcases hall k with h1 | h2 | h3
              · rw [h1] at hk
                cases hk
              · rw [h2] at hk
                cases hk
              · exact absurd h3 hki

theorem inv2_step (s : CState) (i : Nat) (h : InvP2 s) : InvC (stepT succB s i) := by
  obtain ⟨hb, ws, hc, hlt, hlk, hf, hfc, hnd, hcorr, hall, hbr⟩ := h
  by_cases hi : i < s.ntasks
  swap
  · simp only [stepT, hi, if_false]
    exact Or.inr (Or.inr ⟨hb, ws, hc, hlt, hlk, hf, hfc, hnd, hcorr, hall, hbr⟩)
  rcases hall i with hstart | hwait | hacq | hdone
  · -- a fresh task hits the populated cache and returns at once
    have hiw : i ∉ ws := by
      intro hmem
      have := (hcorr i).mp hmem
      rw [hstart] at this
      cases this
    simp only [stepT, hi, if_true, hstart, hc, hf, List.mem_singleton, if_true]
    refine Or.inr (Or.inr ⟨hb, ws, by simpa using hc, by simpa using hlt,
      by simpa using hlk, by simpa using hf, by simpa using hfc, hnd, ?_, ?_, ?_⟩)
    · intro k
      simp only [setTask_tasks]
      by_cases hk : k = i
      · rw [hk, Function.update_same]
        simp [hiw, hk]
      · rw [Function.update_noteq hk]
        exact hcorr k
    · intro k
      simp only [setTask_tasks]
      by_cases hk : k = i
      · exact Or.inr (Or.inr (Or.inr (by rw [hk, Function.update_same])))
      · rw [Function.update_noteq hk]
        exact hall k
    · rcases hbr with ⟨htrue, a, ha, hu⟩ | ⟨hfalse, hwsnil, hnoacq⟩
      · have hai : a ≠ i := by
          intro he
          rw [he, hstart] at ha
          cases ha
        refine Or.inl ⟨htrue, a, ?_, ?_⟩
        · simp only [setTask_tasks]
          rw [Function.update_noteq hai]
          exact ha
        · intro k hk
          simp only [setTask_tasks] at hk
          by_cases hki : k = i
          · rw [hki, Function.update_same] at hk
            cases hk
          · rw [Function.update_noteq hki] at hk
            exact hu k hk
      · refine Or.inr ⟨hfalse, hwsnil, ?_⟩
        intro k hk
        simp only [setTask_tasks] at hk
        by_cases hki : k = i
        · rw [hki, Function.update_same] at hk
          cases hk
        · rw [Function.update_noteq hki] at hk
          exact hnoacq k hk
  · -- a queued task gets a slot while still blocked: no state change
    simp only [stepT, hi, if_true, hwait]
    exact Or.inr (Or.inr ⟨hb, ws, hc, hlt, hlk, hf, hfc, hnd, hcorr, hall, hbr⟩)
  · -- the lock holder resumes: double-check hits, release, return
    rcases hbr with ⟨htrue, a, ha, hu⟩ | ⟨hfalse, hwsnil, hnoacq⟩
    swap
    · exact absurd hacq (hnoacq i)
    subst htrue
    have hai := hu i hacq
    subst hai
    cases ws with
    | nil =>
      simp only [stepT, hi, if_true, hacq, recheckFetch, hc, hf, List.mem_singleton,
        if_true, releaseLock, findLock, hlk, List.find?, beq_self_eq_true]
      refine Or.inr (Or.inr ⟨false, [], ?_, ?_, ?_, ?_, ?_, List.nodup_nil, ?_, ?_, ?_⟩)
      · simpa using hc
      · simpa using hlt
      · simp [hlk]
      · simpa using hf
      · simpa using hfc
      · intro k
        simp only [List.not_mem_nil, false_iff, setTask_tasks, mapLock_tasks]
        intro hkw
        by_cases hk : k = i
        · rw [hk, Function.update_same] at hkw
          cases hkw
        · rw [Function.update_noteq hk] at hkw
          exact absurd ((hcorr k).mpr hkw) (List.not_mem_nil k)
      · intro k
        simp only [setTask_tasks, mapLock_tasks]
        by_cases hk : k = i
        · exact Or.inr (Or.inr (Or.inr (by rw [hk, Function.update_same])))
        · rw [Function.update_noteq hk]
          rcases hall k with h1 | h2 | h3 | h4
          · exact Or.inl h1
          · exact Or.inr (Or.inl h2)
          · exact absurd (hu k h3) hk
          · exact Or.inr (Or.inr (Or.inr h4))
      · refine Or.inr ⟨rfl, rfl, ?_⟩
        intro k hk
        simp only [setTask_tasks, mapLock_tasks] at hk
        by_cases hki : k = i
        · rw [hki, Function.update_same] at hk
          cases hk
        · rw [Function.update_noteq hki] at hk
          exact hki (hu k hk)
    | cons w ws' =>
      have hwmem : w ∈ w :: ws' := List.mem_cons_self w ws'
      have hwi : w ≠ i := by
        intro he
        have := (hcorr w).mp hwmem
        rw [he, hacq] at this
        cases this
      have hwn : w ∉ ws' := (List.nodup_cons.mp hnd).1
      have hnd' : ws'.Nodup := (List.nodup_cons.mp hnd).2
      have hin : i ∉ ws' := by
        intro hmem
        have := (hcorr i).mp (List.mem_cons_of_mem w hmem)
        rw [hacq] at this
        cases this
      simp only [stepT, hi, if_true, hacq, recheckFetch, hc, hf, List.mem_singleton,
        if_true, releaseLock, findLock, hlk, List.find?, beq_self_eq_true]
      refine Or.inr (Or.inr ⟨true, ws', ?_, ?_, ?_, ?_, ?_, hnd', ?_, ?_, ?_⟩)
      · simpa using hc
      · simpa using hlt
      · simp [hlk]
      · simpa using hf
      · simpa using hfc
      · intro k
        simp only [setTask_tasks, mapLock_tasks]
        by_cases hki : k = i
        · rw [hki, Function.update_same]
          simp [hin, hki]
        · rw [Function.update_noteq hki]
          by_cases hkw : k = w
          · rw [hkw, Function.update_same]
            simp [hwn]
          · rw [Function.update_noteq hkw]
            have := hcorr k
            rw [List.mem_cons] at this
            constructor
            · intro hmem
              exact this.mp (Or.inr hmem)
            · intro hkwait
              rcases this.mpr hkwait with h1 | h1
              · exact absurd h1 hkw
              · exact h1
      · intro k
        simp only [setTask_tasks, mapLock_tasks]
        by_cases hki : k = i
        · exact Or.inr (Or.inr (Or.inr (by rw [hki, Function.update_same])))
        · rw [Function.update_noteq hki]
          by_cases hkw : k = w
          · exact Or.inr (Or.inr (Or.inl (by rw [hkw, Function.update_same])))
          · rw [Function.update_noteq hkw]
            rcases hall k with h1 | h2 | h3 | h4
            · exact Or.inl h1
            · exact Or.inr (Or.inl h2)
            · exact absurd (hu k h3) hki
            · exact Or.inr (Or.inr (Or.inr h4))
      · refine Or.inl ⟨rfl, w, ?_, ?_⟩
        · simp only [setTask_tasks, mapLock_tasks]
          rw [Function.update_noteq hwi, Function.update_same]
        · intro k hk
          simp only [setTask_tasks, mapLock_tasks] at hk
          by_cases hki : k = i
          · rw [hki, Function.update_same] at hk
            cases hk
          · rw [Function.update_noteq hki] at hk
            by_cases hkw : k = w
            · exact hkw
            · rw [Function.update_noteq hkw] at hk
              exact absurd (hu k hk) hki
  · -- a finished task gets a slot: no state change
    simp only [stepT, hi, if_true, hdone]
    exact Or.inr (Or.inr ⟨hb, ws, hc, hlt, hlk, hf, hfc, hnd, hcorr, hall, hbr⟩)

theorem releaseLock_ntasks (s : CState) (lk : Nat) :
    (releaseLock s lk).ntasks = s.ntasks := by
  unfold releaseLock
  cases hfl : findLock s lk with
  | none => rfl
  | some L =>
    cases hw : L.waiters with
    | nil => simp [hw]
    | cons w ws => simp [hw]

theorem recheckFetch_ntasks (s : CState) (i lk : Nat) :
    (recheckFetch s i lk).ntasks = s.ntasks := by
  unfold recheckFetch
  cases hcc : s.cache with
  | none => rfl
  | some p =>
    by_cases hp : p ∈ s.files
    · simp [hp, releaseLock_ntasks]
    · simp [hp]
      rfl

theorem lockPhase_ntasks (s : CState) (i : Nat) :
    (lockPhase s i).ntasks = s.ntasks := by
  unfold lockPhase
  cases hlt : s.lockTable with
  | none => simp [recheckFetch_ntasks]
  | some L =>
    cases hfl : findLock s L with
    | none => simp [hfl]
    | some lob =>
      by_cases hh : lob.held
      · simp [hfl, hh]
      · simp [hfl, hh, recheckFetch_ntasks]

theorem stepT_ntasks (b : Nat → Bool) (s : CState) (i : Nat) :
    (stepT b s i).ntasks = s.ntasks := by
  by_cases hi : i < s.ntasks
  · simp only [stepT, hi, if_true]
    cases ht : s.tasks i with
    | start =>
      cases hcc : s.cache with
      | none => simp [hcc, lockPhase_ntasks]
      | some p =>
        by_cases hp : p ∈ s.files
        · simp [hcc, hp]
        · simp [hcc, hp, lockPhase_ntasks]
    | waiting lk => rfl
    | acquired lk => simp [recheckFetch_ntasks]
    | fetching lk idx f =>
      by_cases hbk : b idx
      · simp [hbk, releaseLock_ntasks]
      · simp [hbk, releaseLock_ntasks]
    | doneOk p => rfl
    | doneErr => rfl
  · simp [stepT, hi]

theorem runSched_ntasks (b : Nat → Bool) (s : CState) (sched : List Nat) :
    (runSched b s sched).ntasks = s.ntasks := by
  induction sched generalizing s with
  | nil => rfl
  | cons x xs ih =>
    show (runSched b (stepT b s x) xs).ntasks = s.ntasks
    rw [ih, stepT_ntasks]

theorem invC_step (s : CState) (i : Nat) (h : InvC s) : InvC (stepT succB s i) := by
  rcases h with h | h | h
  exacts [inv0_step s i h, inv1_step s i h, inv2_step s i h]

theorem invC_run (sched : List Nat) (s : CState) (h : InvC s) :
    InvC (runSched succB s sched) := by
  induction sched generalizing s with
  | nil => exact h
  | cons x xs ih => exact ih _ (invC_step s x h)

theorem invC_init (n : Nat) : InvC (initState n) :=
  Or.inl ⟨rfl, rfl, rfl, rfl, rfl, rfl, rfl, fun _ => rfl⟩

theorem countP_le_one_of_unique (l : List Nat) (p : Nat → Bool) (hnd : l.Nodup)
    (hu : ∀ x y, p x = true → p y = true → x = y) : l.countP p ≤ 1 := by
  induction l with
  | nil => simp
  | cons a l ih =>
    rw [List.countP_cons]
    by_cases hpa : p a = true
    · have hz : l.countP p = 0 := by
        rw [List.countP_eq_zero]
        intro x hx hpx
        exact (List.nodup_cons.mp hnd).1 ((hu x a hpx hpa) ▸ hx)
      simp [hpa, hz]
    · have hfa : p a = false := by
        cases hb : p a
        · rfl
        · exact absurd hb hpa
      simpa [hfa] using ih (List.nodup_cons.mp hnd).2

/-- C1 counterexample.  The claimed invariant — at most one lock object
per key at any time and at most one fetch in flight per key at any
time, across all interleavings — fails: with three concurrent callers
for one uncached key and the first GET failing (a timeout), the
schedule [0, 1, 0, 2, 1] reaches a state with two fetches in flight
and two lock objects for the key at once.  (Caller 0 creates lock 0
and fetches; caller 1 queues on lock 0; caller 0's fetch fails and the
`finally` deletes the key's lock-table entry while caller 1 still
waits on lock 0; caller 2 then finds no table entry, creates lock 1
and fetches; caller 1 wakes holding lock 0, re-checks the still-empty
cache, and fetches too.) -/
theorem single_flight_violated_cex :
    countFetching (runSched cexBackend (initState 3) [0, 1, 0, 2, 1]) = 2 ∧
    (runSched cexBackend (initState 3) [0, 1, 0, 2, 1]).locks.length = 2 ∧
    isFetching ((runSched cexBackend (initState 3) [0, 1, 0, 2, 1]).tasks 1) = true ∧
    isFetching ((runSched cexBackend (initState 3) [0, 1, 0, 2, 1]).tasks 2) = true := by
  decide

/-- C1 amended.  When every fetch succeeds, the claimed single-flight
discipline does hold across all interleavings: in every reachable
state at most one fetch is in flight and at most one lock object
exists for the key, and on any schedule under which all N ≥ 1 callers
complete, exactly one network call was made and every caller returned
the same local path.  (The unrestricted claim is refuted by
`single_flight_violated_cex`: a failing fetch deletes the key's lock
entry while waiters still hold the old lock, letting a later caller
create a second lock and fetch concurrently.) -/
theorem single_flight_all_success (n : Nat) (sched : List Nat) :
    countFetching (runSched succB (initState n) sched) ≤ 1 ∧
    (runSched succB (initState n) sched).locks.length ≤ 1 ∧
    ((∀ i, i < n → isDone ((runSched succB (initState n) sched).tasks i) = true) →
      1 ≤ n →
      (runSched succB (initState n) sched).fetchCount = 1 ∧
      ∃ p, ∀ i, i < n → (runSched succB (initState n) sched).tasks i = .doneOk p) := by
  have hinv := invC_run sched (initState n) (invC_init n)
  have hnt : (runSched succB (initState n) sched).ntasks = n :=
    runSched_ntasks succB (initState n) sched
  rcases hinv with h | h | h
  · obtain ⟨hc, hlt, hlk, hf, hnl, hnf, hfc, htk⟩ := h
    refine ⟨?_, ?_, ?_⟩
    · have hz : countFetching (runSched succB (initState n) sched) = 0 := by
        rw [countFetching, List.countP_eq_zero]
        intro x hx
        simp [htk x, isFetching]
      omega
    · simp [hlk]
    · intro hdone hn
      exfalso
      have := hdone 0 hn
      rw [htk 0] at this
      simp [isDone] at this
  · obtain ⟨j, ws, hc, hlt, hlk, hf, hfc, hj, htj, hnd, hcorr, hall⟩ := h
    refine ⟨?_, ?_, ?_⟩
    · apply countP_le_one_of_unique _ _ (List.nodup_range _)
      intro x y hpx hpy
      have hx : x = j := by
        rcases hall x with h1 | h2 | h3
        · rw [h1] at hpx
          simp [isFetching] at hpx
        · rw [h2] at hpx
          simp [isFetching] at hpx
        · exact h3
      have hy : y = j := by
        rcases hall y with h1 | h2 | h3
        · rw [h1] at hpy
          simp [isFetching] at hpy
        · rw [h2] at hpy
          simp [isFetching] at hpy
        · exact h3
      rw [hx, hy]
    · simp [hlk]
    · intro hdone hn
      exfalso
      have := hdone j (hnt ▸ hj)
      rw [htj] at this
      simp [isDone] at this
  · obtain ⟨hb, ws, hc, hlt, hlk, hf, hfc, hnd, hcorr, hall, hbr⟩ := h
    refine ⟨?_, ?_, ?_⟩
    · have hz : countFetching (runSched succB (initState n) sched) = 0 := by
        rw [countFetching, List.countP_eq_zero]
        intro x hx
        rcases hall x with h1 | h2 | h3 | h4
        · simp [h1, isFetching]
        · simp [h2, isFetching]
        · simp [h3, isFetching]
        · simp [h4, isFetching]
      omega
    · simp [hlk]
    · intro hdone hn
      refine ⟨hfc, 0, ?_⟩
      intro i hin
      rcases hall i with h1 | h2 | h3 | h4
      · have := hdone i hin
        rw [h1] at this
        simp [isDone] at this
      · have := hdone i hin
        rw [h2] at this
        simp [isDone] at this
      · have := hdone i hin
        rw [h3] at this
        simp [isDone] at this
      · exact h4

/-- Witness for the amended C1: two concurrent callers under an
all-success backend, run to completion by a contended schedule, make
exactly one network call and both return path 0. -/
theorem single_flight_all_success_witness :
    (runSched succB (initState 2) [0, 1, 0, 1]).fetchCount = 1 ∧
    ∃ p, ∀ i, i < 2 → (runSched succB (initState 2) [0, 1, 0, 1]).tasks i = .doneOk p :=
  (single_flight_all_success 2 [0, 1, 0, 1]).2.2 (by decide) (by decide)

end PyTg
